import Mathlib

/-!
Shallow embedding of `monitor.py`: a Hoare-style monitor with per-operation
wait queues, a global entry queue, and a stack-based `accept` mechanism.

Threads and real blocking are out of the embedding's frame: every function
below models the *bookkeeping* a call performs while it holds the monitor's
lock, up to the point where it parks (a blocking wait) or returns.  Lock
ownership, which the Python code queries with `self._lock._is_owned()`, is
passed in as an explicit boolean.  A raised Python exception is modelled by
a `raised` flag on the result (the raising functions mutate nothing after
the raise point, exactly as the source does).

Operation identifiers (`func.__name__` in the source) are modelled as
natural numbers; one-shot signal objects (`threading.Lock` instances used
as binary signals) are likewise identified by numbers chosen fresh by the
caller.
-/

/-- Operation identifier: stands for a guarded method's `__name__`. -/
abbrev OpId := Nat

/-- State of `ConditionStack` (monitor.py lines 5-42): the `_waiters` list
of one-shot signals, appended to by `wait` and popped from the end by
`notify`. -/
structure ConditionStack where
  waiters : List Nat
deriving DecidableEq

/-- Result of `ConditionStack.wait`: the waiter list at the moment the
calling thread parks, and whether the call raised instead. -/
structure WaitResult where
  stack : ConditionStack
  raised : Bool
deriving DecidableEq

/-- Embedding of `ConditionStack.wait` (monitor.py lines 24-35) up to the
point where the caller parks on its fresh signal `sig`: raises when the
lock is not owned (before any mutation), otherwise appends the
already-claimed signal to the end of the waiter list. -/
def ConditionStack.wait (cs : ConditionStack) (lockOwned : Bool) (sig : Nat) : WaitResult :=
  if !lockOwned then ⟨cs, true⟩
  else ⟨⟨cs.waiters ++ [sig]⟩, false⟩

/-- Result of `ConditionStack.notify`: the new waiter list, the signal that
was released (if any), and whether the call raised instead. -/
structure NotifyResult where
  stack : ConditionStack
  released : Option Nat
  raised : Bool
deriving DecidableEq

/-- Embedding of `ConditionStack.notify` (monitor.py lines 37-42): raises
when the lock is not owned (before any mutation); otherwise, if the waiter
list is non-empty, pops its last element (`list.pop()`) and releases it. -/
def ConditionStack.notify (cs : ConditionStack) (lockOwned : Bool) : NotifyResult :=
  if !lockOwned then ⟨cs, none, true⟩
  else
    match cs.waiters.getLast? with
    | some w => ⟨⟨cs.waiters.dropLast⟩, some w, false⟩
    | none => ⟨cs, none, false⟩

/-- Bookkeeping state of a `Monitor` instance (monitor.py lines 66-73):
the `_active` flag, the `_entry_queue` list, the `_mutex_queue_count`
dictionary (an association list here), the `_accept_stack` of acceptable
name lists, and the `_acceptor_stack` ConditionStack. -/
structure MonitorState where
  active : Bool
  entry_queue : List OpId
  mutex_queue_count : List (OpId × Int)
  accept_stack : List (List OpId)
  acceptor_stack : ConditionStack
deriving DecidableEq

/-- Dictionary lookup with default, `self._mutex_queue_count.get(k, 0)`. -/
def getCount : List (OpId × Int) → OpId → Int
  | [], _ => 0
  | p :: m, k => if p.1 = k then p.2 else getCount m k

/-- Whether `k` is a key of the dictionary (a declared guarded operation). -/
def hasKey : List (OpId × Int) → OpId → Bool
  | [], _ => false
  | p :: m, k => if p.1 = k then true else hasKey m k

/-- Dictionary update `self._mutex_queue_count[k] += 1`. -/
def incCount (m : List (OpId × Int)) (k : OpId) : List (OpId × Int) :=
  m.map fun p => if p.1 = k then (p.1, p.2 + 1) else p

/-- Dictionary update `self._mutex_queue_count[k] -= 1`. -/
def decCount (m : List (OpId × Int)) (k : OpId) : List (OpId × Int) :=
  m.map fun p => if p.1 = k then (p.1, p.2 - 1) else p

/-- The scan-and-break loop shared by `accept` (monitor.py lines 162-166)
and exit-protocol case 2 (lines 127-131): the first listed name whose
pending count is non-zero, if any. -/
def findPending (m : List (OpId × Int)) : List OpId → Option OpId
  | [] => none
  | f :: fs => if getCount m f ≠ 0 then some f else findPending m fs

/-- The entry-protocol blocking test (monitor.py lines 108-109):
`self._active or self._accept_stack and name not in self._accept_stack[-1]`. -/
def entryBlocks (s : MonitorState) (name : OpId) : Bool :=
  s.active || !s.accept_stack.isEmpty
    && decide (name ∉ s.accept_stack.getLast?.getD [])

/-- Pre-wait bookkeeping on the blocking path (monitor.py lines 111-112):
append the name to the entry queue and increment its pending count, in
that order, before waiting on the operation's condition. -/
def entryBlockStep (s : MonitorState) (name : OpId) : MonitorState :=
  { s with entry_queue := s.entry_queue ++ [name],
           mutex_queue_count := incCount s.mutex_queue_count name }

/-- Outcome of the entry protocol for one caller: either it proceeds
immediately, or it parks; the carried state is the monitor state at the
moment the body starts, respectively at the moment the caller parks. -/
inductive EntryOutcome where
  | immediate (s : MonitorState)
  | blocked (s : MonitorState)
deriving DecidableEq

/-- Embedding of the entry protocol (monitor.py lines 106-116) up to the
first suspension point: if the blocking test holds the caller records
itself and parks, otherwise it marks the monitor active and proceeds. -/
def entryProtocolStart (s : MonitorState) (name : OpId) : EntryOutcome :=
  if entryBlocks s name then EntryOutcome.blocked (entryBlockStep s name)
  else EntryOutcome.immediate { s with active := true }

/-- Embedding of the entry protocol's resumption after a wake (monitor.py
lines 114-116): decrement the pending count, remove the first occurrence
of the name from the entry queue (`list.remove`), and mark the monitor
active before the body runs. -/
def entryResume (s : MonitorState) (name : OpId) : MonitorState :=
  { s with mutex_queue_count := decCount s.mutex_queue_count name,
           entry_queue := s.entry_queue.erase name,
           active := true }

/-- What the exit protocol did: woke the parked acceptor (releasing the
given signal if one was parked), notified one operation's wait queue,
marked the monitor inactive, or — when the accept context's scan found no
pending caller — nothing at all. -/
inductive ExitAction where
  | wokeAcceptor (sig : Option Nat)
  | notifiedQueue (name : OpId)
  | markedInactive
  | noAction
deriving DecidableEq

/-- Embedding of the exit protocol (monitor.py lines 121-136), run with
the lock held: (1) accept stack non-empty and the completing name in its
top list pops both stacks and notifies the acceptor ConditionStack;
(2) else with a non-empty accept stack, scan the top list and notify the
first name with a non-zero pending count; (3) else notify the queue of the
entry queue's front; (4) else clear the active flag. -/
def exitProtocol (s : MonitorState) (name : OpId) : MonitorState × ExitAction :=
  match s.accept_stack.getLast? with
  | some top =>
    if name ∈ top then
      let nr := ConditionStack.notify s.acceptor_stack true
      ({ s with accept_stack := s.accept_stack.dropLast, acceptor_stack := nr.stack },
        ExitAction.wokeAcceptor nr.released)
    else
      match findPending s.mutex_queue_count top with
      | some f => (s, ExitAction.notifiedQueue f)
      | none => (s, ExitAction.noAction)
  | none =>
    match s.entry_queue with
    | front :: _ => (s, ExitAction.notifiedQueue front)
    | [] => ({ s with active := false }, ExitAction.markedInactive)

/-- Result of the wrapper's body-and-exit phase: the final bookkeeping
state, the exit protocol's action if it ran, and whether the body's
exception is propagating to the caller. -/
structure WrapResult where
  state : MonitorState
  action : Option ExitAction
  raised : Bool
deriving DecidableEq

/-- Embedding of `wrap` (monitor.py lines 104-138) from the point where
the entry protocol has admitted the call: run the body, then the exit
protocol.  The source has no try/finally around `func(self, ...)` (line
119), so a raising body leaves the `with self._lock` block by exception,
skipping the exit protocol entirely; only the lock itself is released. -/
def wrapAfterEntry (s : MonitorState) (name : OpId) (bodyRaises : Bool) : WrapResult :=
  if bodyRaises then ⟨s, none, true⟩
  else
    let r := exitProtocol s name
    ⟨r.1, some r.2, false⟩

/-- Result of `Monitor.accept`'s synchronous part: the bookkeeping state
at the moment the acceptor parks (or the exception propagates), which wait
queue was notified (if any), and whether the call raised. -/
structure AcceptResult where
  state : MonitorState
  notified : Option OpId
  raised : Bool
deriving DecidableEq

/-- Embedding of `Monitor.accept` (monitor.py lines 144-169) up to the
point where the caller parks on the acceptor ConditionStack: push the
ordered name list onto the accept stack; scan the names in order and
notify the first wait queue with a non-zero pending count (the underlying
`threading.Condition.notify` raises when the lock is not owned, before the
active flag is touched); set the active flag to whether a queue was
notified; finally park via `ConditionStack.wait` (which itself raises when
the lock is not owned).  No precondition is checked anywhere. -/
def Monitor.accept (s : MonitorState) (lockOwned : Bool) (names : List OpId) (sig : Nat) :
    AcceptResult :=
  let s1 : MonitorState := { s with accept_stack := s.accept_stack ++ [names] }
  match findPending s1.mutex_queue_count names with
  | some f =>
    if lockOwned then
      let s2 : MonitorState := { s1 with active := true }
      let wr := ConditionStack.wait s2.acceptor_stack true sig
      ⟨{ s2 with acceptor_stack := wr.stack }, some f, wr.raised⟩
    else
      ⟨s1, none, true⟩
  | none =>
    let s2 : MonitorState := { s1 with active := false }
    let wr := ConditionStack.wait s2.acceptor_stack lockOwned sig
    ⟨{ s2 with acceptor_stack := wr.stack }, none, wr.raised⟩

/-! ## Helper lemmas -/

/-- With the lock owned, `notify` pops the last-appended waiter (or does
nothing on an empty list), never raises, and the popped/released pair is
`dropLast`/`getLast?` of the waiter list. -/
theorem notify_locked (cs : ConditionStack) :
    (ConditionStack.notify cs true).stack = ⟨cs.waiters.dropLast⟩ ∧
    (ConditionStack.notify cs true).released = cs.waiters.getLast? ∧
    (ConditionStack.notify cs true).raised = false := by
  obtain ⟨ws⟩ := cs
  rcases List.eq_nil_or_concat ws with h | ⟨L, b, h⟩ <;>
    simp [ConditionStack.notify, h]

/-- Incrementing a present key raises its `getCount` by one. -/
theorem getCount_incCount (m : List (OpId × Int)) (k : OpId) (h : hasKey m k = true) :
    getCount (incCount m k) k = getCount m k + 1 := by
  induction m with
  | nil => simp [hasKey] at h
  | cons p m ih =>
    by_cases hp : p.1 = k
    · simp [incCount, getCount, hp]
    · simp only [hasKey, if_neg hp] at h
      simpa [incCount, getCount, hp] using ih h

/-- Decrementing a present key lowers its `getCount` by one. -/
theorem getCount_decCount (m : List (OpId × Int)) (k : OpId) (h : hasKey m k = true) :
    getCount (decCount m k) k = getCount m k - 1 := by
  induction m with
  | nil => simp [hasKey] at h
  | cons p m ih =>
    by_cases hp : p.1 = k
    · simp [decCount, getCount, hp]
    · simp only [hasKey, if_neg hp] at h
      simpa [decCount, getCount, hp] using ih h

/-- The scan-and-break loop returns the first listed name whose pending
count is non-zero, in the `List.find?` sense. -/
theorem findPending_eq_find? (m : List (OpId × Int)) (l : List OpId) :
    findPending m l = l.find? fun f => decide (getCount m f ≠ 0) := by
  induction l with
  | nil => rfl
  | cons f fs ih =>
    by_cases hf : getCount m f = 0
    · simp [findPending, List.find?, hf, ih]
    · simp [findPending, List.find?, hf]

/-- The scan finds nobody when every listed name's pending count is zero. -/
theorem findPending_eq_none (m : List (OpId × Int)) (l : List OpId)
    (h : ∀ f ∈ l, getCount m f = 0) : findPending m l = none := by
  induction l with
  | nil => rfl
  | cons f fs ih =>
    have hf := h f (List.mem_cons_self f fs)
    simp only [findPending, hf]
    simp only [ne_eq, not_true_eq_false, if_false]
    exact ih fun g hg => h g (List.mem_cons_of_mem f hg)

/-! ## Claims -/

/-- Claim C10: `ConditionStack.notify` called with the lock held and an
empty waiter list is a no-op: it returns normally, raises no error, and
leaves the waiter list unchanged. -/
theorem C10_notify_empty_noop :
    ConditionStack.notify ⟨[]⟩ true = ⟨⟨[]⟩, none, false⟩ := by
  decide

/-- Claim C8: `ConditionStack.wait` and `ConditionStack.notify` raise a
usage error exactly when the calling thread does not hold the lock, and in
that case they change no state and release nobody; with the lock held
neither raises. -/
theorem C8_unacquired_lock_errors (cs : ConditionStack) (sig : Nat) :
    (ConditionStack.wait cs false sig).raised = true ∧
    (ConditionStack.wait cs false sig).stack = cs ∧
    (ConditionStack.notify cs false).raised = true ∧
    (ConditionStack.notify cs false).stack = cs ∧
    (ConditionStack.notify cs false).released = none ∧
    (ConditionStack.wait cs true sig).raised = false ∧
    (ConditionStack.notify cs true).raised = false :=
  ⟨rfl, rfl, rfl, rfl, rfl, rfl, (notify_locked cs).2.2⟩

/-- Claim C7: the condition helper is LIFO. `wait` appends its fresh
signal at the END of the waiter list; on any non-empty waiter list
`notify` removes and releases exactly the last-appended signal; hence the
thread that called `wait` last is woken first. -/
theorem C7_lifo_wakeup (cs : ConditionStack) (sig : Nat) (ws : List Nat) (h : ws ≠ []) :
    (ConditionStack.wait cs true sig).stack.waiters = cs.waiters ++ [sig] ∧
    (ConditionStack.notify ⟨ws⟩ true).released = ws.getLast? ∧
    (ConditionStack.notify ⟨ws⟩ true).stack.waiters = ws.dropLast ∧
    (ConditionStack.notify ⟨ws⟩ true).released.isSome = true ∧
    (ConditionStack.notify (ConditionStack.wait cs true sig).stack true).released = some sig := by
  refine ⟨rfl, (notify_locked ⟨ws⟩).2.1, ?_, ?_, ?_⟩
  · rw [(notify_locked ⟨ws⟩).1]
  · rw [(notify_locked ⟨ws⟩).2.1]
    simpa [List.getLast?_isSome] using h
  · rw [(notify_locked (ConditionStack.wait cs true sig).stack).2.1]
    show ((⟨cs.waiters ++ [sig]⟩ : ConditionStack)).waiters.getLast? = some sig
    simp

/-- Claim C7 witness: with waiters `[3, 4]` parked in that order, a
notification wakes signal 4; after thread 2 waits behind thread 1, the
next notification releases thread 2's signal. -/
theorem C7_lifo_wakeup_witness :
    (ConditionStack.wait ⟨[1]⟩ true 2).stack.waiters = [1, 2] ∧
    (ConditionStack.notify ⟨[3, 4]⟩ true).released = some 4 ∧
    (ConditionStack.notify (ConditionStack.wait ⟨[1]⟩ true 2).stack true).released = some 2 := by
  have h := C7_lifo_wakeup ⟨[1]⟩ 2 [3, 4] (by decide)
  exact ⟨h.1, h.2.1, h.2.2.2.2⟩

/-- Claim C1 as the spec states it is FALSE of the code; this theorem
evaluates the embedded wrapper at a failing input.  State: monitor active,
one caller of operation 1 blocked (entry queue `[1]`, pending count 1), no
accept context.  When operation 0's body raises, `wrap` propagates the
exception with the bookkeeping state unchanged — the exit protocol did not
run (`action = none`), the monitor stays active and the blocked caller is
never notified — whereas on normal return the exit protocol runs and
notifies operation 1's wait queue. -/
theorem C1_body_failure_skips_exit :
    wrapAfterEntry ⟨true, [1], [(0, 0), (1, 1)], [], ⟨[]⟩⟩ 0 true
      = ⟨⟨true, [1], [(0, 0), (1, 1)], [], ⟨[]⟩⟩, none, true⟩ ∧
    (wrapAfterEntry ⟨true, [1], [(0, 0), (1, 1)], [], ⟨[]⟩⟩ 0 false).action
      = some (ExitAction.notifiedQueue 1) ∧
    (wrapAfterEntry ⟨true, [1], [(0, 0), (1, 1)], [], ⟨[]⟩⟩ 0 true).state.active = true := by
  decide

/-- Claim C2 as stated is FALSE of the code, at concrete inputs.  Start
from an inactive monitor whose only declared guarded operation is 0, with
nothing pending.  (a) `accept` naming the never-declared operation 5,
called with the lock held, raises no error at all.  (b) `accept` called
without the lock held (outside any guarded body) does raise, but only
after the accept stack has already been mutated: at the moment the error
propagates the accept stack holds `[[5]]`, not its original `[]`. -/
theorem C2_counterexample :
    (Monitor.accept ⟨false, [], [(0, 0)], [], ⟨[]⟩⟩ true [5] 0).raised = false ∧
    (Monitor.accept ⟨false, [], [(0, 0)], [], ⟨[]⟩⟩ false [5] 0).raised = true ∧
    (Monitor.accept ⟨false, [], [(0, 0)], [], ⟨[]⟩⟩ false [5] 0).state.accept_stack
      = [[5]] := by
  decide

/-- Claim C2 amended: `Monitor.accept` performs no usage-error checks of
its own.  With the lock held it never raises, whatever names it is passed
(an undeclared name is simply read as pending count zero).  Without the
lock held it always raises — from the underlying condition primitives, not
from a precondition check — and at the moment the error propagates the
ordered name list has already been pushed onto the accept stack; the
acceptor waiter list is still unchanged at that moment. -/
theorem C2_accept_unvalidated (s : MonitorState) (names : List OpId) (sig : Nat) :
    (Monitor.accept s true names sig).raised = false ∧
    (Monitor.accept s false names sig).raised = true ∧
    (Monitor.accept s false names sig).state.accept_stack = s.accept_stack ++ [names] ∧
    (Monitor.accept s false names sig).state.acceptor_stack = s.acceptor_stack := by
  cases hfp : findPending s.mutex_queue_count names with
  | some f =>
    refine ⟨?_, ?_, ?_, ?_⟩ <;>
      simp [Monitor.accept, ConditionStack.wait, hfp]
  | none =>
    refine ⟨?_, ?_, ?_, ?_⟩ <;>
      simp [Monitor.accept, ConditionStack.wait, hfp]

/-- Claim C5: `accept` called with the lock held pushes the ordered name
list onto the accept stack, notifies exactly the first listed name with a
non-zero pending count (and nobody when there is none), sets the active
flag to whether somebody was notified, parks the caller at the END of the
acceptor waiter list, raises nothing, and touches neither the entry queue
nor the pending counts. -/
theorem C5_accept_effect (s : MonitorState) (names : List OpId) (sig : Nat) :
    (Monitor.accept s true names sig).state.accept_stack = s.accept_stack ++ [names] ∧
    (Monitor.accept s true names sig).notified
      = (names.find? fun f => decide (getCount s.mutex_queue_count f ≠ 0)) ∧
    (Monitor.accept s true names sig).state.active
      = (names.find? fun f => decide (getCount s.mutex_queue_count f ≠ 0)).isSome ∧
    (Monitor.accept s true names sig).state.acceptor_stack.waiters
      = s.acceptor_stack.waiters ++ [sig] ∧
    (Monitor.accept s true names sig).state.entry_queue = s.entry_queue ∧
    (Monitor.accept s true names sig).state.mutex_queue_count = s.mutex_queue_count ∧
    (Monitor.accept s true names sig).raised = false := by
  have hfind : (names.find? fun f => decide (getCount s.mutex_queue_count f ≠ 0))
      = findPending s.mutex_queue_count names :=
    (findPending_eq_find? s.mutex_queue_count names).symm
  cases hfp : findPending s.mutex_queue_count names with
  | some f =>
    rw [hfind, hfp]
    refine ⟨?_, ?_, ?_, ?_, ?_, ?_, ?_⟩ <;>
      simp [Monitor.accept, ConditionStack.wait, hfp]
  | none =>
    rw [hfind, hfp]
    refine ⟨?_, ?_, ?_, ?_, ?_, ?_, ?_⟩ <;>
      simp [Monitor.accept, ConditionStack.wait, hfp]

/-- Claim C3: the exit protocol decides in strict priority order.
(1) With a non-empty accept stack whose top list contains the completing
name, it pops the top of the accept stack AND of the acceptor waiter list,
waking the signal parked last.  (2) Else with a non-empty accept stack it
notifies the wait queue of the first name in the top list (in the order
originally passed to accept) having a non-zero pending count, leaving all
state — the accept stack included — unpopped.  (3) Else with a non-empty
entry queue it notifies the wait queue of the entry queue's front.
(4) Else it clears the active flag. -/
theorem C3_exit_protocol_priority (s : MonitorState) (name : OpId) :
    (∀ top, s.accept_stack.getLast? = some top → name ∈ top →
      exitProtocol s name =
        ({ s with accept_stack := s.accept_stack.dropLast,
                  acceptor_stack := ⟨s.acceptor_stack.waiters.dropLast⟩ },
          ExitAction.wokeAcceptor s.acceptor_stack.waiters.getLast?)) ∧
    (∀ top f, s.accept_stack.getLast? = some top → name ∉ top →
      (top.find? fun g => decide (getCount s.mutex_queue_count g ≠ 0)) = some f →
      exitProtocol s name = (s, ExitAction.notifiedQueue f)) ∧
    (∀ front rest, s.accept_stack = [] → s.entry_queue = front :: rest →
      exitProtocol s name = (s, ExitAction.notifiedQueue front)) ∧
    (s.accept_stack = [] → s.entry_queue = [] →
      exitProtocol s name = ({ s with active := false }, ExitAction.markedInactive)) := by
  have hn := notify_locked s.acceptor_stack
  refine ⟨?_, ?_, ?_, ?_⟩
  · intro top h hm
    simp only [exitProtocol, h, if_pos hm, hn.1, hn.2.1]
  · intro top f h hm hf
    have hf' : findPending s.mutex_queue_count top = some f := by
      rw [findPending_eq_find?]; exact hf
    simp only [exitProtocol, h, if_neg hm, hf']
  · intro front rest h he
    simp only [exitProtocol, h, List.getLast?_nil, he]
  · intro h he
    simp only [exitProtocol, h, List.getLast?_nil, he]

/-- Claim C3 witness: the four priority cases at concrete states.  Case 1
pops both stacks and releases the parked signal 7; case 2 notifies
operation 1's queue without popping; case 3 notifies the entry queue's
front; case 4 clears the active flag. -/
theorem C3_witness :
    exitProtocol ⟨true, [], [(0, 1)], [[0]], ⟨[7]⟩⟩ 0
      = (⟨true, [], [(0, 1)], [], ⟨[]⟩⟩, ExitAction.wokeAcceptor (some 7)) ∧
    exitProtocol ⟨true, [], [(1, 1)], [[1]], ⟨[7]⟩⟩ 0
      = (⟨true, [], [(1, 1)], [[1]], ⟨[7]⟩⟩, ExitAction.notifiedQueue 1) ∧
    exitProtocol ⟨true, [2], [(2, 1)], [], ⟨[]⟩⟩ 0
      = (⟨true, [2], [(2, 1)], [], ⟨[]⟩⟩, ExitAction.notifiedQueue 2) ∧
    exitProtocol ⟨true, [], [], [], ⟨[]⟩⟩ 0
      = (⟨false, [], [], [], ⟨[]⟩⟩, ExitAction.markedInactive) := by
  refine ⟨?_, ?_, ?_, ?_⟩
  · exact (C3_exit_protocol_priority ⟨true, [], [(0, 1)], [[0]], ⟨[7]⟩⟩ 0).1
      [0] (by decide) (by decide)
  · exact (C3_exit_protocol_priority ⟨true, [], [(1, 1)], [[1]], ⟨[7]⟩⟩ 0).2.1
      [1] 1 (by decide) (by decide) (by decide)
  · exact (C3_exit_protocol_priority ⟨true, [2], [(2, 1)], [], ⟨[]⟩⟩ 0).2.2.1
      2 [] rfl rfl
  · exact (C3_exit_protocol_priority ⟨true, [], [], [], ⟨[]⟩⟩ 0).2.2.2 rfl rfl

/-- Claim C4: the entry protocol blocks exactly when the monitor is active
or an accept context exists whose top list excludes the caller's name;
when it blocks it first appends the name to the entry queue and increments
the operation's pending count (the active flag untouched); on resumption
it decrements the count and removes the name from the entry queue; and on
both the immediate and the resumed path the monitor is marked active
before the body runs. -/
theorem C4_entry_protocol (s : MonitorState) (name : OpId)
    (hk : hasKey s.mutex_queue_count name = true) :
    (entryBlocks s name = true ↔
      s.active = true ∨ (s.accept_stack ≠ [] ∧
        ∀ top, s.accept_stack.getLast? = some top → name ∉ top)) ∧
    (entryBlocks s name = true →
      entryProtocolStart s name = EntryOutcome.blocked (entryBlockStep s name)) ∧
    (entryBlocks s name = false →
      entryProtocolStart s name = EntryOutcome.immediate { s with active := true }) ∧
    (entryBlockStep s name).entry_queue = s.entry_queue ++ [name] ∧
    getCount (entryBlockStep s name).mutex_queue_count name
      = getCount s.mutex_queue_count name + 1 ∧
    (entryBlockStep s name).active = s.active ∧
    getCount (entryResume s name).mutex_queue_count name
      = getCount s.mutex_queue_count name - 1 ∧
    (entryResume s name).entry_queue = s.entry_queue.erase name ∧
    (entryResume s name).active = true := by
  refine ⟨?_, ?_, ?_, rfl, getCount_incCount _ _ hk, rfl,
    getCount_decCount _ _ hk, rfl, rfl⟩
  · rcases List.eq_nil_or_concat s.accept_stack with h | ⟨L, b, h⟩
    · simp [entryBlocks, h]
    · simp only [entryBlocks, h, List.concat_eq_append, List.getLast?_concat,
        Option.getD_some, Bool.or_eq_true, Bool.and_eq_true, decide_eq_true_eq]
      constructor
      · rintro (ha | ⟨-, hb⟩)
        · exact Or.inl ha
        · refine Or.inr ⟨by simp, ?_⟩
          rintro top htop
          injection htop with htop
          exact htop ▸ hb
      · rintro (ha | ⟨-, hb⟩)
        · exact Or.inl ha
        · exact Or.inr ⟨by simp, hb b rfl⟩
  · intro hb
    simp [entryProtocolStart, hb]
  · intro hb
    simp [entryProtocolStart, hb]

/-- Claim C4 witness: on an active monitor with two pending callers of
operation 0, a third call to operation 0 blocks, recording itself (count
goes from 2 to 3); and its resumption decrements back and marks the
monitor active. -/
theorem C4_witness :
    entryBlocks ⟨true, [0, 0], [(0, 2)], [], ⟨[]⟩⟩ 0 = true ∧
    getCount (entryBlockStep ⟨true, [0, 0], [(0, 2)], [], ⟨[]⟩⟩ 0).mutex_queue_count 0 = 3 ∧
    getCount (entryResume ⟨true, [0, 0], [(0, 2)], [], ⟨[]⟩⟩ 0).mutex_queue_count 0 = 1 ∧
    (entryResume ⟨true, [0, 0], [(0, 2)], [], ⟨[]⟩⟩ 0).active = true := by
  obtain ⟨hiff, -, -, -, hinc, -, hdec, -, hact⟩ :=
    C4_entry_protocol ⟨true, [0, 0], [(0, 2)], [], ⟨[]⟩⟩ 0 (by decide)
  refine ⟨hiff.mpr (Or.inl rfl), ?_, ?_, hact⟩
  · rw [hinc]; decide
  · rw [hdec]; decide

/-- Claim C9: when the exit protocol runs with an accept context whose top
list excludes the completing name and every listed name has pending count
zero, nothing happens: no queue is notified, the whole state — both stacks
included — is unchanged, and the monitor stays active. -/
theorem C9_no_eligible_stalls (s : MonitorState) (name : OpId) (top : List OpId)
    (h1 : s.accept_stack.getLast? = some top) (h2 : name ∉ top)
    (h3 : ∀ f ∈ top, getCount s.mutex_queue_count f = 0) (h4 : s.active = true) :
    exitProtocol s name = (s, ExitAction.noAction) ∧
    (exitProtocol s name).1.active = true := by
  have hfp := findPending_eq_none s.mutex_queue_count top h3
  have he : exitProtocol s name = (s, ExitAction.noAction) := by
    simp only [exitProtocol, h1, if_neg h2, hfp]
  exact ⟨he, by rw [he]; exact h4⟩

/-- Claim C9 witness: operation 2 completes while `accept` of operation 3
is in force and nobody is pending on 3; the caller of operation 2 waiting
in the entry queue is not woken and the state is untouched. -/
theorem C9_witness :
    exitProtocol ⟨true, [2], [(2, 1), (3, 0)], [[3]], ⟨[9]⟩⟩ 2
      = (⟨true, [2], [(2, 1), (3, 0)], [[3]], ⟨[9]⟩⟩, ExitAction.noAction) :=
  (C9_no_eligible_stalls ⟨true, [2], [(2, 1), (3, 0)], [[3]], ⟨[9]⟩⟩ 2 [3]
    (by decide) (by decide) (by decide) rfl).1

/-- Claim C6: equal length of the accept stack and the acceptor waiter
list is preserved by every operation: `accept`'s setup pushes exactly one
entry onto each; the exit protocol preserves equality (case 1 pops one
from each in lock-step, the other cases touch neither); the entry
protocol's two steps modify neither stack. -/
theorem C6_stack_parity (s : MonitorState) (name : OpId) (names : List OpId) (sig : Nat)
    (h : s.accept_stack.length = s.acceptor_stack.waiters.length) :
    ((Monitor.accept s true names sig).state.accept_stack.length
        = s.accept_stack.length + 1 ∧
      (Monitor.accept s true names sig).state.acceptor_stack.waiters.length
        = s.acceptor_stack.waiters.length + 1 ∧
      (Monitor.accept s true names sig).state.accept_stack.length
        = (Monitor.accept s true names sig).state.acceptor_stack.waiters.length) ∧
    ((exitProtocol s name).1.accept_stack.length
        = (exitProtocol s name).1.acceptor_stack.waiters.length) ∧
    ((entryBlockStep s name).accept_stack = s.accept_stack ∧
      (entryBlockStep s name).acceptor_stack = s.acceptor_stack) ∧
    ((entryResume s name).accept_stack = s.accept_stack ∧
      (entryResume s name).acceptor_stack = s.acceptor_stack) := by
  refine ⟨?_, ?_, ⟨rfl, rfl⟩, ⟨rfl, rfl⟩⟩
  · cases hfp : findPending s.mutex_queue_count names with
    | some f =>
      refine ⟨?_, ?_, ?_⟩ <;>
        simp [Monitor.accept, ConditionStack.wait, hfp, h]
    | none =>
      refine ⟨?_, ?_, ?_⟩ <;>
        simp [Monitor.accept, ConditionStack.wait, hfp, h]
  · rcases List.eq_nil_or_concat s.accept_stack with ha | ⟨L, b, ha⟩
    · cases he : s.entry_queue with
      | nil => simpa [exitProtocol, ha, he] using h
      | cons front rest => simpa [exitProtocol, ha, he] using h
    · by_cases hm : name ∈ b
      · have hn := notify_locked s.acceptor_stack
        simp only [exitProtocol, ha, List.concat_eq_append, List.getLast?_concat,
          if_pos hm, hn.1]
        simp only [List.dropLast_concat, List.length_dropLast]
        rw [ha] at h
        simp only [List.concat_eq_append, List.length_append, List.length_cons,
          List.length_nil] at h
        omega
      · cases hfp : findPending s.mutex_queue_count b with
        | some f => simpa [exitProtocol, ha, List.getLast?_concat, if_neg hm, hfp] using h
        | none => simpa [exitProtocol, ha, List.getLast?_concat, if_neg hm, hfp] using h

/-- Claim C6 witness: from a state with one outstanding accept (both
stacks of length 1), a further `accept` setup leaves them equal (length
2 each), and an exit satisfying the outstanding accept pops both to equal
length 0. -/
theorem C6_witness :
    ((Monitor.accept ⟨true, [], [(0, 0)], [[1]], ⟨[5]⟩⟩ true [0] 7).state.accept_stack.length
      = (Monitor.accept ⟨true, [], [(0, 0)], [[1]], ⟨[5]⟩⟩ true
          [0] 7).state.acceptor_stack.waiters.length) ∧
    ((exitProtocol ⟨true, [], [(0, 0)], [[1]], ⟨[5]⟩⟩ 1).1.accept_stack.length
      = (exitProtocol ⟨true, [], [(0, 0)], [[1]], ⟨[5]⟩⟩ 1).1.acceptor_stack.waiters.length) := by
  have h6 := C6_stack_parity ⟨true, [], [(0, 0)], [[1]], ⟨[5]⟩⟩ 1 [0] 7 (by decide)
  exact ⟨h6.1.2.2, h6.2.1⟩
